import Mathlib

/-!
Verification of the SBS-1 decode-and-batch pipeline
(`src/parse.rs` and `src/main.rs` of imichaelmoore/adsb-rust-dataset).

Lines of input are modelled as `List Char`.  The decoder `parse` is embedded
from `src/parse.rs`; the driving loop and the batching discipline are embedded
from `src/main.rs`.  The wall clock (Rust `SystemTime::now`, read once per
`parse` call) is passed in explicitly: to `parse` as the parameter `ts`, and to
the driving loop as a stream `clock : Nat → List Char` indexed by the number of
previous clock reads.
-/

namespace ADSB

/-- Rust `char::is_whitespace` (the Unicode `White_Space` property), used by
`str::trim` on the input line.  The code points listed are exactly the Unicode
`White_Space` set. -/
def isRustWhitespace (c : Char) : Bool :=
  let n := c.toNat
  (9 ≤ n && n ≤ 13) || n = 32 || n = 133 || n = 160 || n = 5760 ||
    (8192 ≤ n && n ≤ 8202) || n = 8232 || n = 8233 || n = 8239 || n = 8287 || n = 12288

/-- Drop leading whitespace characters (Rust `str::trim_start`). -/
def trimLeft : List Char → List Char
  | [] => []
  | c :: cs => if isRustWhitespace c then trimLeft cs else c :: cs

/-- Rust `str::trim`: drop leading and trailing whitespace. -/
def rustTrim (l : List Char) : List Char :=
  (trimLeft (trimLeft l).reverse).reverse

/-- Rust `str::split(',')`: split into comma-separated fields, preserving empty
fields; the empty string yields one empty field. -/
def splitComma : List Char → List (List Char)
  | [] => [[]]
  | c :: cs =>
    if c = ',' then [] :: splitComma cs
    else
      match splitComma cs with
      | [] => [[c]]
      | p :: ps => (c :: p) :: ps

/-- `let parts: Vec<&str> = msg.trim().split(',').collect();` from
`src/parse.rs` line 185. -/
def fields (msg : List Char) : List (List Char) :=
  splitComma (rustTrim msg)

/-- ASCII decimal digit test, as used by Rust integer parsing. -/
def isAsciiDigit (c : Char) : Bool :=
  '0' ≤ c && c ≤ '9'

/-- Value of a list of ASCII digits, most significant first. -/
def natOfDigits (l : List Char) : Nat :=
  l.foldl (fun a c => 10 * a + (c.toNat - 48)) 0

/-- Parse a non-empty all-digit string to its value; `none` otherwise. -/
def digitsToNat : List Char → Option Nat
  | [] => none
  | l => if l.all isAsciiDigit then some (natOfDigits l) else none

/-- The mathematical integer denoted by a Rust integer literal: an optional
`+`/`-` sign followed by one or more ASCII digits; `none` if the text is not of
that shape.  This is `i32::from_str` before its range check. -/
def int_from_str (l : List Char) : Option Int :=
  match l with
  | '+' :: rest => (digitsToNat rest).map (fun n => (n : Int))
  | '-' :: rest => (digitsToNat rest).map (fun n => -(n : Int))
  | _ => (digitsToNat l).map (fun n => (n : Int))

/-- Rust `i32::from_str`: sign and digits, and the value must fit in a 32-bit
signed integer (overflow is a parse error). -/
def i32_from_str (l : List Char) : Option Int :=
  (int_from_str l).bind fun n =>
    if -2147483648 ≤ n ∧ n ≤ 2147483647 then some n else none

/-- `parse_int` from `src/parse.rs` lines 230-232:
`opt.and_then(|&s| i32::from_str(s).ok())`. -/
def parse_int (opt : Option (List Char)) : Option Int :=
  opt.bind i32_from_str

/-- `parse_bool` from `src/parse.rs` lines 225-227:
`opt.and_then(|s| i32::from_str(s).ok().map(|num| num != 0))`. -/
def parse_bool (opt : Option (List Char)) : Option Bool :=
  opt.bind fun s => (i32_from_str s).map (fun n => n != 0)

/-- `parse_string` from `src/parse.rs` lines 220-222:
`opt.map(|&s| s.to_string())`. -/
def parse_string (opt : Option (List Char)) : Option (List Char) :=
  opt.map (fun s => s)

/-- Exponent part of the Rust float grammar: either nothing, or `e`/`E`, an
optional sign, and at least one digit. -/
def expoOk : List Char → Bool
  | [] => true
  | c :: rest =>
    (c = 'e' || c = 'E') &&
      (let rest2 := match rest with
        | '+' :: r => r
        | '-' :: r => r
        | r => r
      !rest2.isEmpty && rest2.all isAsciiDigit)

/-- Mantissa-and-exponent part of the Rust float grammar: digits with at most
one decimal point (at least one digit overall), then an optional exponent. -/
def mantissaOk (l : List Char) : Bool :=
  let ds1 := l.takeWhile isAsciiDigit
  let r1 := l.dropWhile isAsciiDigit
  match r1 with
  | '.' :: r2 =>
    let ds2 := r2.takeWhile isAsciiDigit
    let r3 := r2.dropWhile isAsciiDigit
    (!ds1.isEmpty || !ds2.isEmpty) && expoOk r3
  | _ => !ds1.isEmpty && expoOk r1

/-- ASCII lower-casing, for the case-insensitive special float values. -/
def asciiLower (c : Char) : Char :=
  if 'A' ≤ c && c ≤ 'Z' then Char.ofNat (c.toNat + 32) else c

/-- Whether `f32::from_str` succeeds on this text: an optional sign followed by
`inf`, `infinity` or `nan` (case-insensitive) or a decimal number with optional
fraction and exponent.  `f32::from_str` never fails on magnitude (it saturates
to infinity / zero), so success is determined by this grammar alone. -/
def f32_from_str_ok (l : List Char) : Bool :=
  let body := match l with
    | '+' :: r => r
    | '-' :: r => r
    | r => r
  let lower := body.map asciiLower
  lower = "inf".data || lower = "infinity".data || lower = "nan".data || mantissaOk body

/-- `parse_float` from `src/parse.rs` lines 235-237:
`opt.and_then(|&s| f32::from_str(s).ok())`.  The parsed `f32` value is
represented by its accepted source text (no property of this development
inspects the numeric value of a float field, only whether coercion succeeded
and that it is a deterministic function of the text). -/
def parse_float (opt : Option (List Char)) : Option (List Char) :=
  opt.bind fun s => if f32_from_str_ok s then some s else none

/-- A calendar date plus a time of day, no timezone: the relevant content of
chrono's `NaiveDateTime` as used by this program. -/
structure NaiveDateTime where
  year : Nat
  month : Nat
  day : Nat
  hour : Nat
  minute : Nat
  second : Nat
deriving DecidableEq

/-- Proleptic Gregorian leap-year rule. -/
def isLeapYear (y : Nat) : Bool :=
  (y % 4 = 0 && y % 100 ≠ 0) || y % 400 = 0

/-- Number of days in a month of the proleptic Gregorian calendar. -/
def daysInMonth (y m : Nat) : Nat :=
  if m = 2 then (if isLeapYear y then 29 else 28)
  else if m = 4 || m = 6 || m = 9 || m = 11 then 30
  else 31

/-- Modelled from the spec: chrono's
`NaiveDateTime::parse_from_str(s, "%Y/%m/%d %H:%M:%S")` (the chrono library is
an external dependency whose source is not part of this repository).  Per spec
section 4.1, the string must match the pattern exactly - four-digit year, slash,
two-digit month, slash, two-digit day, one space, then a colon-separated
two-digit 24-hour time - and carry valid calendar values; invalid calendar
values (e.g. hour 25) yield `none`. -/
def naive_date_time_from_str (l : List Char) : Option NaiveDateTime :=
  match l with
  | [y1, y2, y3, y4, c1, m1, m2, c2, d1, d2, c3, h1, h2, c4, i1, i2, c5, s1, s2] =>
    if c1 = '/' && c2 = '/' && c3 = ' ' && c4 = ':' && c5 = ':' &&
        [y1, y2, y3, y4, m1, m2, d1, d2, h1, h2, i1, i2, s1, s2].all isAsciiDigit then
      let y := natOfDigits [y1, y2, y3, y4]
      let mo := natOfDigits [m1, m2]
      let d := natOfDigits [d1, d2]
      let h := natOfDigits [h1, h2]
      let mi := natOfDigits [i1, i2]
      let s := natOfDigits [s1, s2]
      if 1 ≤ mo ∧ mo ≤ 12 ∧ 1 ≤ d ∧ d ≤ daysInMonth y mo ∧ h ≤ 23 ∧ mi ≤ 59 ∧ s ≤ 59 then
        some ⟨y, mo, d, h, mi, s⟩
      else none
    else none
  | _ => none

/-- `parse_date_time` from `src/parse.rs` lines 249-256: both sub-fields must
be present; they are combined as `format!("{date} {time}")` and parsed with the
fixed format `"%Y/%m/%d %H:%M:%S"`. -/
def parse_date_time (optDate optTime : Option (List Char)) : Option NaiveDateTime :=
  match optDate, optTime with
  | some date, some time => naive_date_time_from_str (date ++ ' ' :: time)
  | _, _ => none

/-- The decoded message, `SBS1Message` from `src/parse.rs` lines 10-32.
`f32` fields are represented by their accepted source text (see
`parse_float`). -/
structure SBS1Message where
  timestamp : List Char
  message_type : Option (List Char)
  transmission_type : Option Int
  session_id : Option (List Char)
  aircraft_id : Option (List Char)
  icao24 : Option (List Char)
  flight_id : Option (List Char)
  generated_date : Option NaiveDateTime
  logged_date : Option NaiveDateTime
  callsign : Option (List Char)
  altitude : Option Int
  ground_speed : Option (List Char)
  track : Option (List Char)
  lat : Option (List Char)
  lon : Option (List Char)
  vertical_rate : Option Int
  squawk : Option Int
  alert : Option Bool
  emergency : Option Bool
  spi : Option Bool
  on_ground : Option Bool
deriving DecidableEq

/-- The callsign rule from `src/parse.rs` lines 197-201, expressed on the
optional field text: `parts.len() > 10` is `parts.get(10)` being present, and
the field must be non-empty (before trimming) for the trimmed text to be kept.
-/
def callsignField (opt : Option (List Char)) : Option (List Char) :=
  match opt with
  | some f => if f ≠ [] then some (rustTrim f) else none
  | none => none

/-- Shallow embedding of `parse` from `src/parse.rs` lines 183-217.  The Rust
function reads the wall clock once (in `SBS1Message::new`, before the record
marker is checked) to build the timestamp; that clock reading is the explicit
parameter `ts` here.  All other fields are functions of the input line alone.
-/
def parse (ts : List Char) (msg : List Char) : Option SBS1Message :=
  let parts := fields msg
  if parts.head? = some "MSG".data then
    some
      { timestamp := ts
        message_type := some "MSG".data
        transmission_type := parse_int (parts.get? 1)
        session_id := parse_string (parts.get? 2)
        aircraft_id := parse_string (parts.get? 3)
        icao24 := parse_string (parts.get? 4)
        flight_id := parse_string (parts.get? 5)
        generated_date := parse_date_time (parts.get? 6) (parts.get? 7)
        logged_date := parse_date_time (parts.get? 8) (parts.get? 9)
        callsign := callsignField (parts.get? 10)
        altitude := parse_int (parts.get? 11)
        ground_speed := parse_float (parts.get? 12)
        track := parse_float (parts.get? 13)
        lat := parse_float (parts.get? 14)
        lon := parse_float (parts.get? 15)
        vertical_rate := parse_int (parts.get? 16)
        squawk := parse_int (parts.get? 17)
        alert := parse_bool (parts.get? 18)
        emergency := parse_bool (parts.get? 19)
        spi := parse_bool (parts.get? 20)
        on_ground := parse_bool (parts.get? 21) }
  else none

/-- The batching state of the driving loop in `src/main.rs`: the pending
`VecDeque<SBS1Message>` plus the configured batch size. -/
structure Aggregator (α : Type) where
  batch_size : Nat
  buf : List α

/-- One `offer`: `messages.push_back(parsed)` followed by the size check
`messages.len() >= batch_size`, which drains the whole buffer as a batch
(`src/main.rs` lines 89-94). -/
def offer {α : Type} (a : Aggregator α) (m : α) : Aggregator α × Option (List α) :=
  let buf2 := a.buf ++ [m]
  if a.batch_size ≤ buf2.length then (⟨a.batch_size, []⟩, some buf2)
  else (⟨a.batch_size, buf2⟩, none)

/-- The final `flush`: `if !messages.is_empty() { send_to_service(...) }`
(`src/main.rs` lines 100-102). -/
def flush {α : Type} (a : Aggregator α) : Aggregator α × Option (List α) :=
  if a.buf.isEmpty then (a, none) else (⟨a.batch_size, []⟩, some a.buf)

/-- Offer a sequence of messages one by one, collecting the emitted batches in
order. -/
def offerAll {α : Type} (a : Aggregator α) : List α → Aggregator α × List (List α)
  | [] => (a, [])
  | m :: rest =>
    let r1 := offer a m
    let r2 := offerAll r1.1 rest
    (r2.1, r1.2.toList ++ r2.2)

/-- All batches produced by a run of the aggregator: the size-triggered batches
followed by the final flush batch, if any. -/
def runPipelineMsgs {α : Type} (size : Nat) (ms : List α) : List (List α) :=
  (offerAll (Aggregator.mk size []) ms).2 ++
    (flush (offerAll (Aggregator.mk size []) ms).1).2.toList

/-- The driving loop of `src/main.rs` lines 85-104.  An input item is either a
text line or a read error (`Except.error ()`).  The loop body is
`if let Ok(msg) = line { if let Some(parsed) = parse(&msg) { push and maybe
send } }`; after the line iterator is exhausted the non-empty buffer is flushed.
`parse` reads the clock on every `Ok` line (even rejected ones), so the clock
index advances exactly there. -/
def mainLoopAux (size : Nat) (clock : Nat → List Char) :
    Nat → List SBS1Message → List (Except Unit (List Char)) → List (List SBS1Message)
  | _, buf, [] => (flush (Aggregator.mk size buf)).2.toList
  | n, buf, Except.error _ :: rest => mainLoopAux size clock n buf rest
  | n, buf, Except.ok line :: rest =>
    match parse (clock n) line with
    | some m =>
      ((offer (Aggregator.mk size buf) m).2).toList ++
        mainLoopAux size clock (n + 1) (offer (Aggregator.mk size buf) m).1.buf rest
    | none => mainLoopAux size clock (n + 1) buf rest

/-- The whole pipeline run: empty initial buffer, clock index 0. -/
def mainLoop (size : Nat) (clock : Nat → List Char)
    (lines : List (Except Unit (List Char))) : List (List SBS1Message) :=
  mainLoopAux size clock 0 [] lines

/-- The sample MSG,3 line used by the repository's tests. -/
def sampleLine : List Char :=
  ("MSG,3,1,1,A1B2C3,1,2024/01/15,12:30:45,2024/01/15,12:30:45," ++
    "UAL123,35000,450.5,180.0,40.7128,-74.0060,0,1200,0,0,0,0").data

/-- A MSG,1 line whose callsign field is `"UAL123  "` (trailing spaces). -/
def ualLine : List Char :=
  "MSG,1,1,1,A1B2C3,1,2024/01/15,12:30:45,2024/01/15,12:30:45,UAL123  ,,,,,,,,,,".data

/-- A MSG line whose callsign field (index 10) is three spaces, followed by one
more field so that line-level trimming does not touch the spaces. -/
def wsCallsignLine : List Char :=
  "MSG,,,,,,,,,,   ,".data

/-- A MSG line with an empty session_id field (index 2). -/
def emptySessionLine : List Char :=
  "MSG,1,,ABC,,".data

/-- A short accepted line. -/
def goodLine : List Char :=
  "MSG,3".data

end ADSB

namespace ADSB

/-! ### Helper lemmas -/

/-- `parse_string` is the identity on the optional field text. -/
theorem parse_string_id (o : Option (List Char)) : parse_string o = o := by
  cases o <;> rfl

/-- Unfolding lemma for `offerAll` on a cons cell. -/
theorem offerAll_cons {α : Type} (a : Aggregator α) (m : α) (rest : List α) :
    offerAll a (m :: rest) =
      ((offerAll (offer a m).1 rest).1,
        (offer a m).2.toList ++ (offerAll (offer a m).1 rest).2) := rfl

/-- Invariant of a run of `offerAll` started below the threshold: the batch
size is preserved, the final buffer stays below the threshold, the emitted
batches followed by the final buffer are exactly the offered messages in
order, every emitted batch has exactly the configured size, and the number of
batches and the final buffer size are given by division and remainder. -/
theorem offerAll_inv {α : Type} (size : Nat) (hs : 0 < size) :
    ∀ ms buf : List α, buf.length < size →
      (offerAll (Aggregator.mk size buf) ms).1.batch_size = size ∧
      (offerAll (Aggregator.mk size buf) ms).1.buf.length < size ∧
      (offerAll (Aggregator.mk size buf) ms).2.flatten ++
          (offerAll (Aggregator.mk size buf) ms).1.buf = buf ++ ms ∧
      (∀ b ∈ (offerAll (Aggregator.mk size buf) ms).2, b.length = size) ∧
      (offerAll (Aggregator.mk size buf) ms).2.length = (buf.length + ms.length) / size ∧
      (offerAll (Aggregator.mk size buf) ms).1.buf.length
        = (buf.length + ms.length) % size := by
  intro ms
  induction ms with
  | nil =>
    intro buf hb
    refine ⟨rfl, hb, by simp [offerAll], by simp [offerAll], ?_, ?_⟩
    · simp [offerAll, Nat.div_eq_of_lt hb]
    · simp [offerAll, Nat.mod_eq_of_lt hb]
  | cons m rest ih =>
    intro buf hb
    by_cases hfull : size ≤ buf.length + 1
    · have hlen : buf.length + 1 = size := Nat.le_antisymm hb hfull
      have hof : offer (Aggregator.mk size buf) m = (⟨size, []⟩, some (buf ++ [m])) := by
        simp only [offer, List.length_append, List.length_cons, List.length_nil]
        rw [if_pos (by omega)]
      obtain ⟨ih1, ih2, ih3, ih4, ih5, ih6⟩ := ih [] (by simpa using hs)
      simp only [List.length_nil, Nat.zero_add] at ih3 ih5 ih6
      rw [offerAll_cons, hof]
      refine ⟨ih1, ih2, ?_, ?_, ?_, ?_⟩
      · simp only [Option.toList_some, List.cons_append, List.nil_append,
          List.flatten_cons, List.append_assoc, ih3]
      · intro b hb2
        rcases List.mem_cons.mp (by simpa using hb2) with h | h
        · rw [h]; simp [hlen]
        · exact ih4 b h
      · have e : buf.length + (m :: rest).length = rest.length + size := by
          simp only [List.length_cons]; omega
        rw [e, Nat.add_div_right _ hs]
        simp [ih5]
      · have e : buf.length + (m :: rest).length = rest.length + size := by
          simp only [List.length_cons]; omega
        rw [e, Nat.add_mod_right]
        simpa using ih6
    · have hof : offer (Aggregator.mk size buf) m = (⟨size, buf ++ [m]⟩, none) := by
        simp only [offer, List.length_append, List.length_cons, List.length_nil]
        rw [if_neg (by omega)]
      obtain ⟨ih1, ih2, ih3, ih4, ih5, ih6⟩ := ih (buf ++ [m]) (by simp; omega)
      rw [offerAll_cons, hof]
      have e : buf.length + (m :: rest).length = (buf ++ [m]).length + rest.length := by
        simp only [List.length_cons, List.length_append, List.length_nil]; omega
      refine ⟨ih1, ih2, ?_, by simpa using ih4, ?_, ?_⟩
      · simp only [Option.toList_none, List.nil_append, ih3, List.append_assoc,
          List.singleton_append]
      · rw [e]; simpa using ih5
      · rw [e]; exact ih6

/-- Two adjacent pieces of a list are its take and drop. -/
theorem two_piece {α : Type} (x y ms : List α) (B : Nat) (hx : x.length = B)
    (hj : x ++ y = ms) : [x, y] = [ms.take B, ms.drop B] := by
  subst hj
  subst hx
  simp [List.take_left, List.drop_left]

/-! ### Claims -/

/-- Claim C1: a line is rejected (`none`) exactly when the first
comma-separated field of the trimmed line is not the literal `MSG`, and every
line whose first field is `MSG` decodes successfully, regardless of the
remaining fields. -/
theorem msg_accept_iff (ts msg : List Char) :
    (parse ts msg = none ↔ ¬(fields msg).head? = some "MSG".data) ∧
    ((fields msg).head? = some "MSG".data → (parse ts msg).isSome = true) := by
  by_cases h : (fields msg).head? = some "MSG".data <;> simp [parse, h]

/-- Witness for C1: the line `MSG,3` is accepted. -/
theorem msg_accept_iff_witness : (parse ['0'] goodLine).isSome = true :=
  (msg_accept_iff ['0'] goodLine).2 (by decide)

/-- Claim C2 counterexample: in the line `MSG,,,,,,,,,,   ,` the callsign field
(index 10) consists only of spaces, yet the decoded callsign is the present
empty string `some []`, not absent (`none`) as the claim states. -/
theorem callsign_whitespace_cex :
    (parse ['0'] wsCallsignLine).map SBS1Message.callsign = some (some []) ∧
    ¬(parse ['0'] wsCallsignLine).map SBS1Message.callsign = some none := by
  refine ⟨by decide, by decide⟩

/-- Claim C2 (amended): for an accepted record, the callsign is the trimmed
text of field 10 whenever that field is present and non-empty before trimming
(so a whitespace-only field yields a present empty-string callsign); the
callsign is absent exactly when the field is missing or is the empty string. -/
theorem callsign_trimming (ts msg : List Char)
    (hacc : (fields msg).head? = some "MSG".data) :
    (∀ f, (fields msg).get? 10 = some f → f ≠ [] →
      (parse ts msg).map SBS1Message.callsign = some (some (rustTrim f))) ∧
    ((fields msg).get? 10 = some [] →
      (parse ts msg).map SBS1Message.callsign = some none) ∧
    ((fields msg).get? 10 = none →
      (parse ts msg).map SBS1Message.callsign = some none) := by
  refine ⟨?_, ?_, ?_⟩
  · intro f hf hne
    rw [List.get?_eq_getElem?] at hf
    simp [parse, hacc, hf, callsignField, hne]
  · intro hf
    rw [List.get?_eq_getElem?] at hf
    simp [parse, hacc, hf, callsignField]
  · intro hf
    rw [List.get?_eq_getElem?] at hf
    simp [parse, hacc, hf, callsignField]

/-- Witness for C2 (amended): the callsign field `UAL123  ` decodes to the
trimmed callsign `UAL123`. -/
theorem callsign_trimming_witness :
    (parse ['0'] ualLine).map SBS1Message.callsign = some (some "UAL123".data) :=
  ((callsign_trimming ['0'] ualLine (by decide)).1 "UAL123  ".data
    (by decide) (by decide)).trans (by decide)

/-- Claim C3: for every positive batch size, the size-triggered batches
followed by the final flush batch concatenate to exactly the offered sequence
(no message split, duplicated, dropped or reordered); every size-triggered
batch has exactly the configured size; and `flush` on an empty buffer emits no
batch. -/
theorem batches_partition {α : Type} (size : Nat) (hs : 0 < size) (ms : List α) :
    (runPipelineMsgs size ms).flatten = ms ∧
    (∀ b ∈ (offerAll (Aggregator.mk size []) ms).2, b.length = size) ∧
    (∀ a : Aggregator α, a.buf = [] → (flush a).2 = none) := by
  obtain ⟨h1, h2, h3, h4, h5, h6⟩ := offerAll_inv size hs ms [] (by simpa using hs)
  refine ⟨?_, h4, ?_⟩
  · by_cases he : (offerAll (Aggregator.mk size []) ms).1.buf = []
    · rw [runPipelineMsgs, flush, if_pos (by simp [he])]
      rw [he] at h3
      simpa using h3
    · rw [runPipelineMsgs, flush, if_neg (by simp [he])]
      simpa [List.flatten_append] using h3
  · intro a ha
    rw [flush, if_pos (by simp [ha])]

/-- Witness for C3: batch size 2 on three messages partitions them. -/
theorem batches_partition_witness :
    (runPipelineMsgs 2 [1, 2, 3]).flatten = [1, 2, 3] :=
  (batches_partition 2 (by decide) [1, 2, 3]).1

/-- Claim C4: with positive batch size B, offering 2B messages yields exactly
the two batches of size B in offer order with nothing left to flush, and
offering B+1 messages followed by one flush yields a batch of size B and a
final batch of size 1, in offer order. -/
theorem batch_counts {α : Type} (B : Nat) (hB : 0 < B) (ms1 ms2 : List α)
    (h1 : ms1.length = 2 * B) (h2 : ms2.length = B + 1) :
    (offerAll (Aggregator.mk B []) ms1).2 = [ms1.take B, ms1.drop B] ∧
    (flush (offerAll (Aggregator.mk B []) ms1).1).2 = none ∧
    runPipelineMsgs B ms2 = [ms2.take B, ms2.drop B] := by
  obtain ⟨a1, a2, a3, a4, a5, a6⟩ := offerAll_inv B hB ms1 [] (by simpa using hB)
  have hc2 : (offerAll (Aggregator.mk B ([] : List α)) ms1).2.length = 2 := by
    rw [a5]
    simp only [List.length_nil, Nat.zero_add, h1]
    exact Nat.mul_div_cancel 2 hB
  have hbuf : (offerAll (Aggregator.mk B ([] : List α)) ms1).1.buf = [] := by
    apply List.eq_nil_of_length_eq_zero
    rw [a6]
    simp [h1]
  obtain ⟨b1, b2, hb⟩ := List.length_eq_two.mp hc2
  have hj : b1 ++ b2 = ms1 := by
    have h := a3
    rw [hb, hbuf] at h
    simpa using h
  have hl1 : b1.length = B := a4 b1 (by rw [hb]; simp)
  refine ⟨hb.trans (two_piece b1 b2 ms1 B hl1 hj), ?_, ?_⟩
  · rw [flush, if_pos (by simp [hbuf])]
  · obtain ⟨g1, g2, g3, g4, g5, g6⟩ := offerAll_inv B hB ms2 [] (by simpa using hB)
    by_cases hB1 : B = 1
    · subst hB1
      have hc : (offerAll (Aggregator.mk 1 ([] : List α)) ms2).2.length = 2 := by
        rw [g5]; simp [h2]
      have hbuf2 : (offerAll (Aggregator.mk 1 ([] : List α)) ms2).1.buf = [] := by
        apply List.eq_nil_of_length_eq_zero
        rw [g6]; simp [h2]
      obtain ⟨c1, c2, hc12⟩ := List.length_eq_two.mp hc
      have hj2 : c1 ++ c2 = ms2 := by
        have h := g3
        rw [hc12, hbuf2] at h
        simpa using h
      have hl : c1.length = 1 := g4 c1 (by rw [hc12]; simp)
      rw [runPipelineMsgs, flush, if_pos (by simp [hbuf2]), hc12]
      simpa using two_piece c1 c2 ms2 1 hl hj2
    · have hB2 : 2 ≤ B := by omega
      have hc : (offerAll (Aggregator.mk B ([] : List α)) ms2).2.length = 1 := by
        rw [g5]
        simp only [List.length_nil, Nat.zero_add, h2]
        exact Nat.div_eq_of_lt_le (by omega) (by omega)
      have hm1 : (offerAll (Aggregator.mk B ([] : List α)) ms2).1.buf.length = 1 := by
        rw [g6]
        simp only [List.length_nil, Nat.zero_add, h2]
        have h := Nat.add_mod_right 1 B
        rw [Nat.add_comm 1 B] at h
        rw [h, Nat.mod_eq_of_lt (by omega)]
      obtain ⟨c1, hc1⟩ := List.length_eq_one.mp hc
      obtain ⟨f0, hf0⟩ := List.length_eq_one.mp hm1
      have hj2 : c1 ++ [f0] = ms2 := by
        have h := g3
        rw [hc1, hf0] at h
        simpa using h
      have hl : c1.length = B := g4 c1 (by rw [hc1]; simp)
      rw [runPipelineMsgs, flush, if_neg (by simp [hf0]), hc1, hf0]
      simpa using two_piece c1 [f0] ms2 B hl hj2

/-- Witness for C4: batch size 2 with four then three messages. -/
theorem batch_counts_witness :
    runPipelineMsgs 2 [1, 2, 3] = [[1, 2], [3]] :=
  ((batch_counts 2 (by decide) [1, 2, 3, 4] [1, 2, 3] (by decide)
    (by decide)).2.2).trans (by decide)

/-- Claim C5: the two date-time fields of an accepted record are the
independent date-time coercions of fields 6,7 and 8,9; the coercion needs both
sub-fields, accepts `2024/01/15` + `12:30:45`, and yields absent on a wrong
separator or an invalid hour. -/
theorem datetime_rule (ts msg : List Char)
    (hacc : (fields msg).head? = some "MSG".data) :
    (parse ts msg).map SBS1Message.generated_date =
        some (parse_date_time ((fields msg).get? 6) ((fields msg).get? 7)) ∧
    (parse ts msg).map SBS1Message.logged_date =
        some (parse_date_time ((fields msg).get? 8) ((fields msg).get? 9)) ∧
    parse_date_time (some "2024/01/15".data) (some "12:30:45".data) =
        some ⟨2024, 1, 15, 12, 30, 45⟩ ∧
    parse_date_time (some "2024-01-15".data) (some "12:30:45".data) = none ∧
    parse_date_time (some "2024/01/15".data) (some "25:00:00".data) = none ∧
    (∀ d, parse_date_time d none = none) ∧
    (∀ t, parse_date_time none t = none) := by
  refine ⟨?_, ?_, by decide, by decide, by decide, ?_, ?_⟩
  · simp [parse, hacc]
  · simp [parse, hacc]
  · intro d
    cases d <;> rfl
  · intro t
    cases t <;> rfl

/-- Witness for C5: the repository's sample line carries generated-date
2024-01-15 12:30:45. -/
theorem datetime_rule_witness :
    (parse ['0'] sampleLine).map SBS1Message.generated_date =
      some (some ⟨2024, 1, 15, 12, 30, 45⟩) :=
  ((datetime_rule ['0'] sampleLine (by decide)).1).trans (by decide)

/-- Claim C6: boolean coercion parses the text as a 32-bit integer; failure
(including the literals `true`/`false`) gives absent, zero gives `false`, any
non-zero integer gives `true`; fields 18-21 of an accepted record are exactly
these coercions. -/
theorem bool_rule :
    parse_bool none = none ∧
    (∀ s, i32_from_str s = none → parse_bool (some s) = none) ∧
    (∀ s n, i32_from_str s = some n → parse_bool (some s) = some (n != 0)) ∧
    parse_bool (some "1".data) = some true ∧
    parse_bool (some "5".data) = some true ∧
    parse_bool (some "-1".data) = some true ∧
    parse_bool (some "0".data) = some false ∧
    parse_bool (some "true".data) = none ∧
    parse_bool (some "false".data) = none ∧
    (∀ ts msg, (fields msg).head? = some "MSG".data →
      (parse ts msg).map SBS1Message.alert = some (parse_bool ((fields msg).get? 18)) ∧
      (parse ts msg).map SBS1Message.emergency = some (parse_bool ((fields msg).get? 19)) ∧
      (parse ts msg).map SBS1Message.spi = some (parse_bool ((fields msg).get? 20)) ∧
      (parse ts msg).map SBS1Message.on_ground = some (parse_bool ((fields msg).get? 21))) := by
  refine ⟨rfl, ?_, ?_, by decide, by decide, by decide, by decide, by decide, by decide, ?_⟩
  · intro s hs
    simp [parse_bool, hs]
  · intro s n hn
    simp [parse_bool, hn]
  · intro ts msg hacc
    refine ⟨?_, ?_, ?_, ?_⟩ <;> simp [parse, hacc]

/-- Witness for C6: `5` parses as the integer 5 and coerces to `true`. -/
theorem bool_rule_witness :
    parse_bool (some "5".data) = some ((5 : Int) != 0) :=
  bool_rule.2.2.1 "5".data 5 (by decide)

/-- Claim C7 counterexample: after a read error the loop keeps consuming
lines - the run over `[error, ok MSG,3]` emits a batch that the run over
`[error]` alone does not, so the error does not terminate the loop. -/
theorem read_error_continue_cex :
    mainLoop 5 (fun _ => ['0']) [Except.error (), Except.ok goodLine] ≠
      mainLoop 5 (fun _ => ['0']) [Except.error ()] := by
  decide

/-- Claim C7 (amended): a read error from the line source is silently skipped
and the driving loop continues with the remaining lines (no error is
propagated and no flush happens at the error); the single flush of the pending
buffer happens only when the line source is exhausted. -/
theorem read_error_skipped (size : Nat) (clock : Nat → List Char) (n : Nat)
    (buf : List SBS1Message) (rest : List (Except Unit (List Char))) :
    mainLoopAux size clock n buf (Except.error () :: rest) =
        mainLoopAux size clock n buf rest ∧
    mainLoopAux size clock n buf [] = (flush (Aggregator.mk size buf)).2.toList := by
  exact ⟨rfl, rfl⟩

/-- Claim C8: the identifier fields (indices 2-5) of an accepted record are
the field text verbatim — present exactly when the index exists, and an empty
field stays the present empty string. -/
theorem verbatim_ids (ts msg : List Char)
    (hacc : (fields msg).head? = some "MSG".data) :
    (parse ts msg).map SBS1Message.session_id = some ((fields msg).get? 2) ∧
    (parse ts msg).map SBS1Message.aircraft_id = some ((fields msg).get? 3) ∧
    (parse ts msg).map SBS1Message.icao24 = some ((fields msg).get? 4) ∧
    (parse ts msg).map SBS1Message.flight_id = some ((fields msg).get? 5) := by
  refine ⟨?_, ?_, ?_, ?_⟩ <;> simp [parse, hacc, parse_string_id]

/-- Witness for C8: an empty session_id field decodes to the present empty
string, not to absent. -/
theorem verbatim_ids_witness :
    (parse ['0'] emptySessionLine).map SBS1Message.session_id = some (some []) :=
  ((verbatim_ids ['0'] emptySessionLine (by decide)).1).trans (by decide)

/-- Claim C9: decoding is deterministic modulo the timestamp - on the same
line, two decode calls either both reject, or both succeed with every field
equal except the timestamp, which is the clock value of the respective call
and does not depend on the line. -/
theorem decode_deterministic (ts1 ts2 msg : List Char) :
    ((parse ts1 msg).isSome = (parse ts2 msg).isSome) ∧
    (∀ m1 m2, parse ts1 msg = some m1 → parse ts2 msg = some m2 →
      m1.timestamp = ts1 ∧ m2.timestamp = ts2 ∧
      m1.message_type = m2.message_type ∧
      m1.transmission_type = m2.transmission_type ∧
      m1.session_id = m2.session_id ∧
      m1.aircraft_id = m2.aircraft_id ∧
      m1.icao24 = m2.icao24 ∧
      m1.flight_id = m2.flight_id ∧
      m1.generated_date = m2.generated_date ∧
      m1.logged_date = m2.logged_date ∧
      m1.callsign = m2.callsign ∧
      m1.altitude = m2.altitude ∧
      m1.ground_speed = m2.ground_speed ∧
      m1.track = m2.track ∧
      m1.lat = m2.lat ∧
      m1.lon = m2.lon ∧
      m1.vertical_rate = m2.vertical_rate ∧
      m1.squawk = m2.squawk ∧
      m1.alert = m2.alert ∧
      m1.emergency = m2.emergency ∧
      m1.spi = m2.spi ∧
      m1.on_ground = m2.on_ground) := by
  constructor
  · by_cases h : (fields msg).head? = some "MSG".data <;> simp [parse, h]
  · intro m1 m2 h1 h2
    by_cases h : (fields msg).head? = some "MSG".data
    · rw [parse] at h1 h2
      simp only [if_pos h] at h1 h2
      injection h1 with e1
      injection h2 with e2
      subst e1
      subst e2
      exact ⟨rfl, rfl, rfl, rfl, rfl, rfl, rfl, rfl, rfl, rfl, rfl, rfl, rfl,
        rfl, rfl, rfl, rfl, rfl, rfl, rfl, rfl, rfl⟩
    · rw [parse] at h1
      simp only [if_neg h] at h1
      exact Option.noConfusion h1

/-- Witness for C9: two decodes of the sample line with different clock values
agree on the icao24 field. -/
theorem decode_deterministic_witness :
    (parse ['1'] sampleLine).isSome = (parse ['2'] sampleLine).isSome ∧
    (∃ m1 m2, parse ['1'] sampleLine = some m1 ∧ parse ['2'] sampleLine = some m2 ∧
      m1.icao24 = m2.icao24) := by
  refine ⟨(decode_deterministic ['1'] ['2'] sampleLine).1, ?_⟩
  cases h1 : parse ['1'] sampleLine with
  | none => exact absurd h1 (by decide)
  | some m1 =>
    cases h2 : parse ['2'] sampleLine with
    | none => exact absurd h2 (by decide)
    | some m2 =>
      exact ⟨m1, m2, rfl, rfl,
        ((decode_deterministic ['1'] ['2'] sampleLine).2 m1 m2 h1 h2).2.2.2.2.2.2.1⟩

/-- Claim C10: integer coercion is bounded to 32-bit signed integers - any
integer text whose value lies outside [-2147483648, 2147483647] coerces to
absent - and the transmission_type, altitude, vertical_rate and squawk fields
of an accepted record are exactly this coercion of fields 1, 11, 16 and 17. -/
theorem int_bounded (s : List Char) (n : Int) (hg : int_from_str s = some n)
    (hout : n < -2147483648 ∨ 2147483647 < n) :
    i32_from_str s = none ∧ parse_int (some s) = none ∧
    (∀ ts msg, (fields msg).head? = some "MSG".data →
      (parse ts msg).map SBS1Message.transmission_type =
          some (parse_int ((fields msg).get? 1)) ∧
      (parse ts msg).map SBS1Message.altitude = some (parse_int ((fields msg).get? 11)) ∧
      (parse ts msg).map SBS1Message.vertical_rate =
          some (parse_int ((fields msg).get? 16)) ∧
      (parse ts msg).map SBS1Message.squawk = some (parse_int ((fields msg).get? 17))) := by
  have hi : i32_from_str s = none := by
    rw [i32_from_str, hg]
    simp only [Option.some_bind]
    rw [if_neg (by omega)]
  refine ⟨hi, by simp [parse_int, hi], ?_⟩
  intro ts msg hacc
  refine ⟨?_, ?_, ?_, ?_⟩ <;> simp [parse, hacc]

/-- Witness for C10: the text `2147483648` denotes 2^31, which overflows i32,
so the coercion yields absent. -/
theorem int_bounded_witness :
    i32_from_str "2147483648".data = none ∧ parse_int (some "2147483648".data) = none := by
  have h := int_bounded "2147483648".data 2147483648 (by decide) (by decide)
  exact ⟨h.1, h.2.1⟩

end ADSB
